import Mathlib

/-! Shallow embedding of the dynamic ion-insertion task-graph engine of
`atomate2` (files `atomate2/common/jobs/electrode.py` and
`atomate2/common/flows/electrode.py`), together with theorems checking the
natural-language specification against the code.

Structures, charge densities and computed entries are opaque to the engine:
we model the structure type `S` and the charge-density type `Chg` as type
parameters, energies as rationals, and the external collaborators
(makers, charge-density extraction, the interstitial generator, the
structure matcher's `fit`) as function-valued parameters.
-/

namespace ElectrodeModel

/-- Model of a pymatgen `ComputedEntry`: the engine only reads
`energy_per_atom`. -/
structure ComputedEntry where
  energy_per_atom : ℚ
deriving DecidableEq

/-- The `RelaxJobSummary` named tuple from `atomate2/common/jobs/electrode.py`:
`(structure, entry, dir_name, uuid)`.  The same record also models the
resolved output document of a relax/static job, whose fields
`structure`, `entry`, `dir_name`, `uuid` are exactly what the engine
projects out of `job_.output`. -/
structure RelaxJobSummary (S : Type) where
  structure_ : S
  entry : ComputedEntry
  dir_name : String
  uuid : String
deriving DecidableEq

/-- A jobflow `Maker`: carries the job name it assigns and (for the value
level) the resolved output document of the job it creates. -/
structure Maker (S : Type) where
  name : String
  run : S → RelaxJobSummary S

/-- A relax job created inside the fan-out loop of
`get_relaxed_job_summaries`: its (appended) name, the candidate structure
it was submitted for, and its resolved output document. -/
structure RelaxJob (S : Type) where
  name : String
  input_structure : S
  output : RelaxJobSummary S
deriving DecidableEq

/-- A jobflow `Flow(jobs, output)` as far as the engine observes it. -/
structure JFFlow (γ : Type) (α : Type) where
  jobs : List γ
  output : Option α
deriving DecidableEq

/-- A jobflow `Response`: a terminal output and/or a replacement flow.
A Python job body that ends in `return None` is modelled as
`{ output := none, replace := none }`. -/
structure JFResponse (α : Type) (γ : Type) where
  output : Option α
  replace : Option γ
deriving DecidableEq

/-- Model of a pymatgen `StructureMatcher`: the set of ignored species and
the underlying comparison, which depends on that set.  `as_dict` /
`from_dict` round-trips preserve `fit_impl` and may change only
`ignored_species`. -/
structure StructureMatcher (S : Type) where
  ignored_species : Finset String
  fit_impl : Finset String → S → S → Bool

/-- Method `StructureMatcher.fit(ref, cand)`. -/
def StructureMatcher.fit {S : Type} (m : StructureMatcher S) (s1 s2 : S) : Bool :=
  m.fit_impl m.ignored_species s1 s2

/-- A defect produced by the interstitial generator; the engine only reads
`defect_structure`. -/
structure Defect (S : Type) where
  defect_structure : S
deriving DecidableEq

/-- The `ChargeInterstitialGenerator` collaborator:
`generate(chg, insert_species) -> defects`. -/
structure ChargeInterstitialGenerator (Chg S : Type) where
  generate : Chg → List String → List (Defect S)

/-- Python list slicing `l[:stop]` for an `int` bound `stop`
(negative bounds count from the end, clamped at 0). -/
def pySliceTo {α : Type} (l : List α) (stop : ℤ) : List α :=
  if stop < 0 then l.take (l.length - (-stop).toNat) else l.take stop.toNat

/-- Python `min(best :: xs, key)`: fold keeping the current minimum, and
keeping the earlier element on ties (Python's `min` returns the first
element attaining the minimum). -/
def pyMinBy {α : Type} (key : α → ℚ) : α → List α → α
  | best, [] => best
  | best, x :: xs => if key x < key best then pyMinBy key x xs else pyMinBy key best xs

/-- Function `get_inserted_structures(chg, inserted_species, insertions_per_step,
charge_insertion_generator)` from `jobs/electrode.py`: run the generator
with `[inserted_species]`, project `defect_structure`, truncate with
`[:insertions_per_step]`.  (The Python default builds a fresh
`ChargeInterstitialGenerator()` when the argument is `None`; here the
generator is always passed explicitly.) -/
def get_inserted_structures {Chg S : Type} (chg : Chg) (inserted_species : String)
    (insertions_per_step : ℤ)
    (charge_insertion_generator : ChargeInterstitialGenerator Chg S) : List S :=
  let gen := charge_insertion_generator.generate chg [inserted_species]
  let inserted_structures := gen.map (fun defect => defect.defect_structure)
  pySliceTo inserted_structures insertions_per_step

/-- Function `get_charge_density_job(prev_dir, get_charge_density)`. -/
def get_charge_density_job {Chg : Type} (prev_dir : String)
    (get_charge_density : String → Chg) : Chg :=
  get_charge_density prev_dir

/-- The `relax_jobs` list built by the loop in `get_relaxed_job_summaries`:
for `ii, structure in enumerate(structures)`, make a relax job and append
`" {append_name} ({ii})"` to its name. -/
def relax_jobs_of {S : Type} (structures : List S) (relax_maker : Maker S)
    (append_name : String) : List (RelaxJob S) :=
  structures.enum.map (fun p =>
    { name := relax_maker.name ++ " " ++ append_name ++ " (" ++ toString p.1 ++ ")"
      input_structure := p.2
      output := relax_maker.run p.2 })

/-- The `outputs` list built by the same loop: per job the dict
`{"structure": job_.output.structure, "entry": job_.output.entry,
"dir_name": job_.output.dir_name, "uuid": job_.output.uuid}` packed into a
`RelaxJobSummary`. -/
def outputs_of {S : Type} (structures : List S) (relax_maker : Maker S)
    (append_name : String) : List (RelaxJobSummary S) :=
  (relax_jobs_of structures relax_maker append_name).map (fun job_ =>
    { structure_ := job_.output.structure_
      entry := job_.output.entry
      dir_name := job_.output.dir_name
      uuid := job_.output.uuid })

/-- Function `get_relaxed_job_summaries(structures, relax_maker, append_name)`:
`return Response(replace=Flow(relax_jobs, output=outputs), output=outputs)`. -/
def get_relaxed_job_summaries {S : Type} (structures : List S) (relax_maker : Maker S)
    (append_name : String) :
    JFResponse (List (RelaxJobSummary S)) (JFFlow (RelaxJob S) (List (RelaxJobSummary S))) :=
  let relax_jobs := relax_jobs_of structures relax_maker append_name
  let outputs := outputs_of structures relax_maker append_name
  { output := some outputs, replace := some { jobs := relax_jobs, output := some outputs } }

/-- Function `get_min_energy_structure(relaxed_summaries, ref_structure,
structure_matcher)`: filter by `structure_matcher.fit(ref_structure,
summary.structure)`; `return None` when no survivor, else
`Response(output=min_summary.structure)` with Python `min` keyed on
`entry.energy_per_atom`. -/
def get_min_energy_structure {S : Type} (relaxed_summaries : List (RelaxJobSummary S))
    (ref_structure : S) (structure_matcher : StructureMatcher S) : JFResponse S Unit :=
  let topotactic_summaries := relaxed_summaries.filter
    (fun summary => structure_matcher.fit ref_structure summary.structure_)
  match topotactic_summaries with
  | [] => { output := none, replace := none }
  | s :: rest =>
    let min_summary := pyMinBy (fun x => x.entry.energy_per_atom) s rest
    { output := some min_summary.structure_, replace := none }

/-- The guard `n_steps is not None and n_steps <= 0` of
`get_stable_inserted_structure`. -/
def stepBudgetExhausted (n_steps : Option ℤ) : Bool :=
  match n_steps with
  | some n => decide (n ≤ 0)
  | none => false

/-- The parameters held fixed through the recursion of
`get_stable_inserted_structure` (its non-varying arguments, with the
interstitial generator made explicit). -/
structure InsertionParams (Chg S : Type) where
  inserted_element : String
  structure_matcher : StructureMatcher S
  static_maker : Maker S
  relax_maker : Maker S
  get_charge_density : String → Chg
  charge_insertion_generator : ChargeInterstitialGenerator Chg S
  insertions_per_step : ℤ

/-- The replacement flow emitted by one non-guarded round of
`get_stable_inserted_structure`: the six jobs
`[static_job, chg_job, insertion_job, relax_jobs, min_en_job, next_step]`
each with `" {add_name}"` appended (where `add_name = f"{n_inserted}"`),
and the parameters the nested `next_step` call received
(`n_steps - 1` when bounded, `n_inserted + 1`). -/
structure StepFlow where
  job_names : List String
  next_n_steps : Option ℤ
  next_n_inserted : ℕ
deriving DecidableEq

/-- The job names of one round's replacement flow, in the order the flow
lists them.  Jobs created from `@job` functions carry the function's name;
the static job carries its maker's name. -/
def step_flow_job_names (static_maker_name : String) (n_inserted : ℕ) : List String :=
  let add_name := toString n_inserted
  [static_maker_name ++ " " ++ add_name,
   "get_charge_density_job" ++ " " ++ add_name,
   "get_inserted_structures" ++ " " ++ add_name,
   "get_relaxed_job_summaries" ++ " " ++ add_name,
   "get_min_energy_structure" ++ " " ++ add_name,
   "get_stable_inserted_structure" ++ " " ++ add_name]

/-- One invocation of `get_stable_inserted_structure`, graph level:
`if structure is None: return None`; `if n_steps is not None and
n_steps <= 0: return None`; otherwise
`return Response(replace=Flow(jobs=[...]))` (no output on the response,
and the replacement flow declares no output). -/
def get_stable_inserted_structure_response {Chg S : Type} (p : InsertionParams Chg S)
    (structure_ : Option S) (n_steps : Option ℤ) (n_inserted : ℕ) :
    JFResponse S StepFlow :=
  match structure_ with
  | none => { output := none, replace := none }
  | some _ =>
    if stepBudgetExhausted n_steps then { output := none, replace := none }
    else
      { output := none
        replace := some
          { job_names := step_flow_job_names p.static_maker.name n_inserted
            next_n_steps := n_steps.map (fun n => n - 1)
            next_n_inserted := n_inserted + 1 } }

/-- The candidate structures one round generates from its input structure:
static run, charge-density extraction from the static job's `dir_name`,
then `get_inserted_structures`. -/
def step_inserted_structures {Chg S : Type} (p : InsertionParams Chg S) (structure_ : S) :
    List S :=
  let static_out := p.static_maker.run structure_
  let chg := get_charge_density_job static_out.dir_name p.get_charge_density
  get_inserted_structures chg p.inserted_element p.insertions_per_step
    p.charge_insertion_generator

/-- The value the `min_en_job` of one round resolves to: fan out relax jobs
over the round's candidates (tag `f"{n_inserted}"`), then
`get_min_energy_structure` against the round's input structure. -/
def stepSelect {Chg S : Type} (p : InsertionParams Chg S) (structure_ : S)
    (n_inserted : ℕ) : Option S :=
  let summaries :=
    ((get_relaxed_job_summaries (step_inserted_structures p structure_) p.relax_maker
        (toString n_inserted)).output).getD []
  (get_min_energy_structure summaries structure_ p.structure_matcher).output

/-- Number of recursion levels that actually emit tasks, following the
guards of `get_stable_inserted_structure` (`structure is None`, then
`n_steps is not None and n_steps <= 0`) and feeding each round's
`min_en_job` output and `n_steps - 1` to the next round.  `fuel` bounds the
unrolling (the unbounded `n_steps = None` engine run is only observed up to
`fuel` rounds). -/
def insertion_levels {Chg S : Type} (p : InsertionParams Chg S) : ℕ → Option S →
    Option ℤ → ℕ → ℕ
  | 0, _, _, _ => 0
  | _ + 1, none, _, _ => 0
  | fuel + 1, some s, n_steps, n_inserted =>
    if stepBudgetExhausted n_steps then 0
    else 1 + insertion_levels p fuel (stepSelect p s n_inserted)
      (n_steps.map (fun n => n - 1)) (n_inserted + 1)

/-- Function `_add_ignored_species(structure_matcher, species)` from
`flows/electrode.py`: round-trip the matcher through its dict with
`str(species)` added to the `ignored_species` set. -/
def _add_ignored_species {S : Type} (structure_matcher : StructureMatcher S)
    (species : String) : StructureMatcher S :=
  { structure_matcher with
    ignored_species := insert species structure_matcher.ignored_species }

/-- The `ElectrodeInsertionMaker` dataclass fields (the abstract
`get_charge_density` method is carried as data). -/
structure ElectrodeInsertionMaker (Chg S : Type) where
  relax_maker : Maker S
  static_maker : Maker S
  bulk_relax_maker : Option (Maker S)
  name : String
  structure_matcher : StructureMatcher S
  get_charge_density : String → Chg

/-- At flow-construction time the `structure=` argument handed to
`get_stable_inserted_structure` is either a concrete structure or the
unresolved reference `relax.output.structure` into the initial bulk
relaxation job. -/
inductive StructureArg (S : Type) where
  | raw (structure_ : S)
  | relaxOutputStructure
deriving DecidableEq

/-- The initial bulk relaxation job built by
`ElectrodeInsertionMaker.make`. -/
structure BulkRelaxJob (S : Type) where
  maker : Maker S
  input_structure : S
  output : RelaxJobSummary S

/-- The keyword arguments `make` passes to
`get_stable_inserted_structure`. -/
structure InsertionJobCall (Chg S : Type) where
  structure_ : StructureArg S
  inserted_element : String
  structure_matcher : StructureMatcher S
  static_maker : Maker S
  relax_maker : Maker S
  get_charge_density : String → Chg
  n_steps : Option ℤ
  insertions_per_step : ℤ

/-- The `Flow([relax, inserted_structure])` that `make` returns. -/
structure MakeFlow (Chg S : Type) where
  relax : BulkRelaxJob S
  inserted_structure : InsertionJobCall Chg S

/-- Method `ElectrodeInsertionMaker.make(structure, inserted_element, n_steps,
insertions_per_step)`: pick `bulk_relax_maker` when set else `relax_maker`
for the first relaxation, add the inserted element to the matcher's
ignored species, start the insertion recursion from
`relax.output.structure`. -/
def ElectrodeInsertionMaker.make {Chg S : Type} (m : ElectrodeInsertionMaker Chg S)
    (structure_ : S) (inserted_element : String) (n_steps : Option ℤ)
    (insertions_per_step : ℤ) : MakeFlow Chg S :=
  let relax_maker_used := match m.bulk_relax_maker with
    | some bulk => bulk
    | none => m.relax_maker
  let relax : BulkRelaxJob S :=
    { maker := relax_maker_used
      input_structure := structure_
      output := relax_maker_used.run structure_ }
  let sm := _add_ignored_species m.structure_matcher inserted_element
  { relax := relax
    inserted_structure :=
      { structure_ := StructureArg.relaxOutputStructure
        inserted_element := inserted_element
        structure_matcher := sm
        static_maker := m.static_maker
        relax_maker := m.relax_maker
        get_charge_density := m.get_charge_density
        n_steps := n_steps
        insertions_per_step := insertions_per_step } }

/-- Concrete static maker over ℕ-coded structures, used to evaluate the
theorems on closed inputs. -/
def staticMakerC : Maker ℕ :=
  { name := "static"
    run := fun s => { structure_ := s, entry := { energy_per_atom := 0 },
                      dir_name := "static_dir_" ++ toString s, uuid := "su" ++ toString s } }

/-- Concrete relax maker: the relaxed structure is the candidate itself and
its energy per atom is the candidate's code. -/
def relaxMakerC : Maker ℕ :=
  { name := "relax"
    run := fun s => { structure_ := s, entry := { energy_per_atom := (s : ℚ) },
                      dir_name := "relax_dir_" ++ toString s, uuid := "ru" ++ toString s } }

/-- Concrete structure matcher: a candidate fits the reference when its code
is strictly below the reference's code. -/
def smC : StructureMatcher ℕ :=
  { ignored_species := ∅
    fit_impl := fun _ ref cand => decide (cand < ref) }

/-- Concrete interstitial generator proposing the two candidates `7`, `3`
regardless of the charge density. -/
def genC : ChargeInterstitialGenerator ℕ ℕ :=
  { generate := fun _ _ => [{ defect_structure := 7 }, { defect_structure := 3 }] }

/-- Concrete parameter set for the recursion. -/
def pC : InsertionParams ℕ ℕ :=
  { inserted_element := "Li"
    structure_matcher := smC
    static_maker := staticMakerC
    relax_maker := relaxMakerC
    get_charge_density := fun _ => 0
    charge_insertion_generator := genC
    insertions_per_step := 4 }

/-- Concrete `ElectrodeInsertionMaker` (no separate bulk relax maker). -/
def eimC : ElectrodeInsertionMaker ℕ ℕ :=
  { relax_maker := relaxMakerC
    static_maker := staticMakerC
    bulk_relax_maker := none
    name := "ion insertion"
    structure_matcher := smC
    get_charge_density := fun _ => 0 }

/-- Specification of the selector: its output is `none` exactly when the
survivor set (the summaries fitting the reference) is empty, and otherwise
it is the structure of the first survivor attaining the minimum energy per
atom (all earlier survivors have strictly larger keys). -/
def SelectBestSpec {S : Type} (relaxed_summaries : List (RelaxJobSummary S))
    (ref_structure : S) (structure_matcher : StructureMatcher S) : Prop :=
  ((get_min_energy_structure relaxed_summaries ref_structure structure_matcher).output = none ↔
    relaxed_summaries.filter
      (fun summary => structure_matcher.fit ref_structure summary.structure_) = []) ∧
  ∀ b, (get_min_energy_structure relaxed_summaries ref_structure
      structure_matcher).output = some b →
    ∃ l1 best l2,
      relaxed_summaries.filter
        (fun summary => structure_matcher.fit ref_structure summary.structure_) =
          l1 ++ best :: l2 ∧
      best.structure_ = b ∧
      (∀ y ∈ relaxed_summaries.filter
          (fun summary => structure_matcher.fit ref_structure summary.structure_),
        best.entry.energy_per_atom ≤ y.entry.energy_per_atom) ∧
      (∀ y ∈ l1, best.entry.energy_per_atom < y.entry.energy_per_atom)

/-- Specification of the fan-out stage: the response carries the summary
sequence as output and a replacement flow of one relax job per candidate;
both sequences have exactly the candidates' length, and at each index `i`
the job was submitted for candidate `i` and the summary projects the
fields of that job's output. -/
def FanOutSpec {S : Type} (structures : List S) (relax_maker : Maker S)
    (append_name : String) : Prop :=
  ∃ outs flow,
    (get_relaxed_job_summaries structures relax_maker append_name).output = some outs ∧
    (get_relaxed_job_summaries structures relax_maker append_name).replace = some flow ∧
    flow.output = some outs ∧
    outs.length = structures.length ∧
    flow.jobs.length = structures.length ∧
    ∀ (i : ℕ), i < structures.length →
      ∃ cand job_ summ, structures[i]? = some cand ∧ flow.jobs[i]? = some job_ ∧
        outs[i]? = some summ ∧
        job_.input_structure = cand ∧
        job_.output = relax_maker.run cand ∧
        summ = { structure_ := job_.output.structure_, entry := job_.output.entry,
                 dir_name := job_.output.dir_name, uuid := job_.output.uuid }

/-! ## Helper lemmas -/

theorem pyMinBy_le {α : Type} (key : α → ℚ) (best : α) (xs : List α) :
    ∀ y ∈ best :: xs, key (pyMinBy key best xs) ≤ key y := by
  induction xs generalizing best with
  | nil =>
    intro y hy
    rw [List.mem_singleton] at hy
    subst hy
    simp [pyMinBy]
  | cons x xs ih =>
    intro y hy
    by_cases h : key x < key best
    · have hv : pyMinBy key best (x :: xs) = pyMinBy key x xs := by simp [pyMinBy, h]
      rw [hv]
      rcases List.mem_cons.mp hy with rfl | hy'
      · exact le_of_lt (lt_of_le_of_lt (ih x x (List.mem_cons_self x xs)) h)
      · exact ih x y hy'
    · have hv : pyMinBy key best (x :: xs) = pyMinBy key best xs := by simp [pyMinBy, h]
      rw [hv]
      rcases List.mem_cons.mp hy with rfl | hy'
      · exact ih y y (List.mem_cons_self y xs)
      · rcases List.mem_cons.mp hy' with rfl | hy''
        · exact le_trans (ih best best (List.mem_cons_self best xs)) (not_lt.mp h)
        · exact ih best y (List.mem_cons_of_mem best hy'')

theorem pyMinBy_first {α : Type} (key : α → ℚ) (best : α) (xs : List α) :
    ∃ l1 l2, best :: xs = l1 ++ pyMinBy key best xs :: l2 ∧
      ∀ y ∈ l1, key (pyMinBy key best xs) < key y := by
  induction xs generalizing best with
  | nil => exact ⟨[], [], by simp [pyMinBy], by simp⟩
  | cons x xs ih =>
    by_cases h : key x < key best
    · have hv : pyMinBy key best (x :: xs) = pyMinBy key x xs := by simp [pyMinBy, h]
      rw [hv]
      obtain ⟨l1, l2, heq, hstrict⟩ := ih x
      refine ⟨best :: l1, l2, ?_, ?_⟩
      · rw [List.cons_append, ← heq]
      · intro y hy
        rcases List.mem_cons.mp hy with rfl | hy'
        · exact lt_of_le_of_lt (pyMinBy_le key x xs x (List.mem_cons_self x xs)) h
        · exact hstrict y hy'
    · have hv : pyMinBy key best (x :: xs) = pyMinBy key best xs := by simp [pyMinBy, h]
      rw [hv]
      obtain ⟨l1, l2, heq, hstrict⟩ := ih best
      cases l1 with
      | nil =>
        simp only [List.nil_append] at heq
        have hb : best = pyMinBy key best xs := (List.cons.inj heq).1
        exact ⟨[], x :: xs, by rw [List.nil_append, ← hb], by simp⟩
      | cons a l1' =>
        rw [List.cons_append] at heq
        obtain ⟨hba, hxs⟩ := List.cons.inj heq
        subst hba
        refine ⟨best :: x :: l1', l2, ?_, ?_⟩
        · rw [List.cons_append, List.cons_append, ← hxs]
        · intro y hy
          have hbest : key (pyMinBy key best xs) < key best :=
            hstrict best (List.mem_cons_self best l1')
          rcases List.mem_cons.mp hy with rfl | hy'
          · exact hbest
          · rcases List.mem_cons.mp hy' with rfl | hy''
            · exact lt_of_lt_of_le hbest (not_lt.mp h)
            · exact hstrict y (List.mem_cons_of_mem best hy'')

/-- The selector job never declares a replacement flow. -/
theorem get_min_energy_structure_replace {S : Type}
    (relaxed_summaries : List (RelaxJobSummary S)) (ref_structure : S)
    (structure_matcher : StructureMatcher S) :
    (get_min_energy_structure relaxed_summaries ref_structure
      structure_matcher).replace = none := by
  unfold get_min_energy_structure
  cases relaxed_summaries.filter
      (fun summary => structure_matcher.fit ref_structure summary.structure_) with
  | nil => rfl
  | cons s rest => rfl

/-- The selector job's output is `None` exactly when filtering leaves no
survivor. -/
theorem get_min_energy_structure_output_none_iff {S : Type}
    (relaxed_summaries : List (RelaxJobSummary S)) (ref_structure : S)
    (structure_matcher : StructureMatcher S) :
    (get_min_energy_structure relaxed_summaries ref_structure
        structure_matcher).output = none ↔
      relaxed_summaries.filter
        (fun summary => structure_matcher.fit ref_structure summary.structure_) = [] := by
  unfold get_min_energy_structure
  cases hf : relaxed_summaries.filter
      (fun summary => structure_matcher.fit ref_structure summary.structure_) with
  | nil => simp
  | cons s rest => simp

/-- A recursion level whose input structure is absent counts no levels,
whatever the budget and fuel. -/
theorem insertion_levels_none {Chg S : Type} (p : InsertionParams Chg S) (fuel : ℕ)
    (n_steps : Option ℤ) (n_inserted : ℕ) :
    insertion_levels p fuel none n_steps n_inserted = 0 := by
  cases fuel with
  | zero => rfl
  | succ fuel => rfl

/-- When filtering leaves the survivors `s :: rest`, the selector outputs
the structure of the Python minimum of `s :: rest` keyed on
`entry.energy_per_atom`. -/
theorem get_min_energy_structure_output_cons {S : Type}
    (relaxed_summaries : List (RelaxJobSummary S)) (ref_structure : S)
    (structure_matcher : StructureMatcher S) (s : RelaxJobSummary S)
    (rest : List (RelaxJobSummary S))
    (hf : relaxed_summaries.filter
      (fun summary => structure_matcher.fit ref_structure summary.structure_) = s :: rest) :
    (get_min_energy_structure relaxed_summaries ref_structure structure_matcher).output =
      some (pyMinBy (fun x => x.entry.energy_per_atom) s rest).structure_ := by
  unfold get_min_energy_structure
  rw [hf]

/-! ## Claims -/

/-- Claim C3: `select_best` filters the summaries to those whose relaxed
structure fits the reference under the matcher, returns the survivor with
minimum energy per atom breaking ties by the first index in sequence
order, and returns `None` exactly when the survivor set is empty. -/
theorem C3_select_best {S : Type} (relaxed_summaries : List (RelaxJobSummary S))
    (ref_structure : S) (structure_matcher : StructureMatcher S) :
    SelectBestSpec relaxed_summaries ref_structure structure_matcher := by
  refine ⟨get_min_energy_structure_output_none_iff relaxed_summaries ref_structure
    structure_matcher, ?_⟩
  intro b hb
  cases hf : relaxed_summaries.filter
      (fun summary => structure_matcher.fit ref_structure summary.structure_) with
  | nil =>
    rw [(get_min_energy_structure_output_none_iff relaxed_summaries ref_structure
      structure_matcher).mpr hf] at hb
    exact absurd hb (by simp)
  | cons s rest =>
    rw [get_min_energy_structure_output_cons relaxed_summaries ref_structure
      structure_matcher s rest hf] at hb
    obtain ⟨l1, l2, heq, hstrict⟩ :=
      pyMinBy_first (fun x => x.entry.energy_per_atom) s rest
    refine ⟨l1, pyMinBy (fun x => x.entry.energy_per_atom) s rest, l2, heq, ?_, ?_, hstrict⟩
    · exact Option.some.inj hb
    · intro y hy
      exact pyMinBy_le (fun x => x.entry.energy_per_atom) s rest y hy

/-- Witness for C3 at a concrete input: candidates `7` and `3` both fit the
reference `100` and the lower-energy `3` is selected. -/
theorem C3_select_best_witness :
    (get_min_energy_structure
        [{ structure_ := 7, entry := { energy_per_atom := 7 }, dir_name := "d7", uuid := "u7" },
         { structure_ := 3, entry := { energy_per_atom := 3 }, dir_name := "d3", uuid := "u3" }]
        (100 : ℕ) smC).output = some 3 ∧
      SelectBestSpec
        [{ structure_ := 7, entry := { energy_per_atom := 7 }, dir_name := "d7", uuid := "u7" },
         { structure_ := 3, entry := { energy_per_atom := 3 }, dir_name := "d3", uuid := "u3" }]
        (100 : ℕ) smC :=
  ⟨by decide, C3_select_best _ 100 smC⟩

/-- Claim C8: candidate generation returns the first `min(L, c)` generated
candidates in generator order (pure truncation, no re-ranking). -/
theorem C8_truncation {Chg S : Type} (chg : Chg) (inserted_species : String)
    (charge_insertion_generator : ChargeInterstitialGenerator Chg S) (c : ℤ)
    (h : 0 ≤ c) :
    get_inserted_structures chg inserted_species c charge_insertion_generator =
      ((charge_insertion_generator.generate chg [inserted_species]).map
          (fun defect => defect.defect_structure)).take
        (min ((charge_insertion_generator.generate chg [inserted_species]).length)
          c.toNat) := by
  simp only [get_inserted_structures, pySliceTo]
  rw [if_neg (not_lt.mpr h)]
  rw [List.take_eq_take]
  simp only [List.length_map]
  omega

/-- Witness for C8 at a concrete input: cap 1 keeps the first of the two
generated candidates. -/
theorem C8_truncation_witness :
    (0:ℤ) ≤ 1 ∧
      get_inserted_structures (0:ℕ) "Li" 1 genC =
        ((genC.generate 0 ["Li"]).map (fun defect => defect.defect_structure)).take
          (min ((genC.generate 0 ["Li"]).length) (1:ℤ).toNat) :=
  ⟨by decide, C8_truncation 0 "Li" genC 1 (by decide)⟩

/-- Claim C4: the fan-out stage produces exactly one relax job and one
summary per candidate, order preserved by index, the `i`-th summary
projecting the output fields of the job submitted for the `i`-th
candidate. -/
theorem C4_fanout {S : Type} (structures : List S) (relax_maker : Maker S)
    (append_name : String) (cap : ℕ) (_hcap : structures.length ≤ cap) :
    FanOutSpec structures relax_maker append_name := by
  refine ⟨outputs_of structures relax_maker append_name,
    { jobs := relax_jobs_of structures relax_maker append_name
      output := some (outputs_of structures relax_maker append_name) },
    rfl, rfl, rfl, ?_, ?_, ?_⟩
  · simp [outputs_of, relax_jobs_of]
  · simp [relax_jobs_of]
  · intro i hi
    refine ⟨structures[i],
      { name := relax_maker.name ++ " " ++ append_name ++ " (" ++ toString i ++ ")"
        input_structure := structures[i]
        output := relax_maker.run structures[i] },
      { structure_ := (relax_maker.run structures[i]).structure_
        entry := (relax_maker.run structures[i]).entry
        dir_name := (relax_maker.run structures[i]).dir_name
        uuid := (relax_maker.run structures[i]).uuid },
      List.getElem?_eq_getElem hi, ?_, ?_, rfl, rfl, rfl⟩
    · simp [relax_jobs_of, List.getElem?_map, List.getElem?_enum,
        List.getElem?_eq_getElem hi]
    · simp [outputs_of, relax_jobs_of, List.getElem?_map, List.getElem?_enum,
        List.getElem?_eq_getElem hi]

/-- Witness for C4 at a concrete input: two candidates, cap 4. -/
theorem C4_fanout_witness :
    ([(7:ℕ), 3]).length ≤ 4 ∧ FanOutSpec [(7:ℕ), 3] relaxMakerC "0" :=
  ⟨by decide, C4_fanout [7, 3] relaxMakerC "0" 4 (by decide)⟩

/-- Claim C1 counterexample: with a positive-coded input structure and a
zero step budget the recursive step's output is `none`, not the input
structure; likewise the selector's no-survivor output is `none`, not the
reference structure.  This refutes the claim that benign termination hands
the caller the last structurally-valid structure rather than a missing
value. -/
theorem C1_counterexample :
    ((get_stable_inserted_structure_response pC (some 5) (some 0) 0).output = none ∧
      (get_stable_inserted_structure_response pC (some 5) (some 0) 0).output ≠ some 5) ∧
    ((get_min_energy_structure
        [{ structure_ := 7, entry := { energy_per_atom := 7 }, dir_name := "d7", uuid := "u7" }]
        (3 : ℕ) smC).output = none ∧
      (get_min_energy_structure
        [{ structure_ := 7, entry := { energy_per_atom := 7 }, dir_name := "d7", uuid := "u7" }]
        (3 : ℕ) smC).output ≠ some 3) := by
  decide

/-- Claim C1 (amended): when recursion stops benignly — exhausted step
budget on entry, absent input structure, or no topotactic survivor — the
terminal output is `None`: the guard returns `None` rather than the input
structure and the no-survivor selector returns `None` rather than the
reference structure, so the caller receives a missing value, not the last
structurally-valid structure. -/
theorem C1_amended_stop_output {Chg S : Type} (p : InsertionParams Chg S) :
    (∀ (s : S) (n : ℤ) (n_inserted : ℕ), n ≤ 0 →
      (get_stable_inserted_structure_response p (some s) (some n) n_inserted).output = none) ∧
    (∀ (relaxed_summaries : List (RelaxJobSummary S)) (ref_structure : S),
      relaxed_summaries.filter
        (fun summary => p.structure_matcher.fit ref_structure summary.structure_) = [] →
      (get_min_energy_structure relaxed_summaries ref_structure
        p.structure_matcher).output = none) ∧
    (∀ (n_steps : Option ℤ) (n_inserted : ℕ),
      (get_stable_inserted_structure_response p none n_steps n_inserted).output = none) := by
  refine ⟨?_, ?_, fun n_steps n_inserted => rfl⟩
  · intro s n n_inserted hn
    simp [get_stable_inserted_structure_response, stepBudgetExhausted, hn]
  · intro relaxed_summaries ref_structure hf
    exact (get_min_energy_structure_output_none_iff _ _ _).mpr hf

/-- Witness for the amended C1 at a concrete input. -/
theorem C1_amended_stop_output_witness :
    (0:ℤ) ≤ 0 ∧
      (get_stable_inserted_structure_response pC (some 5) (some 0) 0).output = none :=
  ⟨by decide, (C1_amended_stop_output pC).1 5 0 0 (by decide)⟩

/-- Claim C2: with a bounded budget `N ≥ 0`, the recursion emits tasks at
most at `N` levels, whatever fuel the scheduler grants. -/
theorem C2_depth_le {Chg S : Type} (p : InsertionParams Chg S) (fuel : ℕ)
    (structure_ : Option S) (n_inserted : ℕ) (N : ℤ) (h : 0 ≤ N) :
    (insertion_levels p fuel structure_ (some N) n_inserted : ℤ) ≤ N := by
  induction fuel generalizing structure_ n_inserted N with
  | zero => simpa [insertion_levels] using h
  | succ fuel ih =>
    cases structure_ with
    | none => simpa [insertion_levels] using h
    | some s =>
      by_cases hb : N ≤ 0
      · have hcond : stepBudgetExhausted (some N) = true := by
          simp only [stepBudgetExhausted, decide_eq_true_eq]
          exact hb
        simp [insertion_levels, hcond]
        simpa using h
      · have hcond : stepBudgetExhausted (some N) = false := by
          simp only [stepBudgetExhausted, decide_eq_false_iff_not]
          omega
        have hrec := ih (stepSelect p s n_inserted) (n_inserted + 1) (N - 1) (by omega)
        simp only [insertion_levels, hcond, Bool.false_eq_true, if_false, Option.map_some']
        push_cast
        push_cast at hrec
        omega

/-- Witness for C2 at a concrete input: from structure `100` with budget 2
the concrete recursion runs exactly 2 levels. -/
theorem C2_depth_le_witness :
    (0:ℤ) ≤ 2 ∧ (insertion_levels pC 5 (some 100) (some 2) 0 : ℤ) ≤ 2 :=
  ⟨by decide, C2_depth_le pC 5 (some 100) 0 2 (by decide)⟩

/-- Claim C5: when the input structure is absent or the step budget is
present and ≤ 0, the recursive step returns neither an output nor a
replacement flow — no compute tasks, no child jobs. -/
theorem C5_guard_noop {Chg S : Type} (p : InsertionParams Chg S)
    (structure_ : Option S) (n_steps : Option ℤ) (n_inserted : ℕ)
    (h : structure_ = none ∨ ∃ n, n_steps = some n ∧ n ≤ 0) :
    get_stable_inserted_structure_response p structure_ n_steps n_inserted =
      { output := none, replace := none } := by
  rcases h with rfl | ⟨n, rfl, hn⟩
  · rfl
  · cases structure_ with
    | none => rfl
    | some s => simp [get_stable_inserted_structure_response, stepBudgetExhausted, hn]

/-- Witness for C5 at a concrete input. -/
theorem C5_guard_noop_witness :
    (some (0:ℤ) = some 0 ∧ (0:ℤ) ≤ 0) ∧
      get_stable_inserted_structure_response pC (some 5) (some 0) 0 =
        { output := none, replace := none } :=
  ⟨⟨rfl, by decide⟩, C5_guard_noop pC (some 5) (some 0) 0 (Or.inr ⟨0, rfl, by decide⟩)⟩

/-- Claim C6: the two termination governors do not interact.  A
selector-driven stop propagates an absent structure whose following round
is the same no-op for every remaining budget, and past such a stop exactly
one further (no-op) level is never counted — the level count is 1
independent of the budget; a counter-driven stop is decided without
consulting any collaborator (identical across parameter sets); and each
expanding round hands the nested step exactly `n_steps - 1`. -/
theorem C6_governors {Chg S : Type} (p q : InsertionParams Chg S) :
    (∀ (n1 n2 : Option ℤ) (n_inserted : ℕ),
      get_stable_inserted_structure_response p none n1 n_inserted =
        get_stable_inserted_structure_response p none n2 n_inserted) ∧
    (∀ (fuel : ℕ) (s : S) (n : ℤ) (n_inserted : ℕ),
      stepSelect p s n_inserted = none → 1 ≤ n →
      insertion_levels p (fuel + 1) (some s) (some n) n_inserted = 1) ∧
    (∀ (s : S) (n : ℤ) (n_inserted : ℕ), n ≤ 0 →
      get_stable_inserted_structure_response p (some s) (some n) n_inserted =
        get_stable_inserted_structure_response q (some s) (some n) n_inserted) ∧
    (∀ (s : S) (n_steps : Option ℤ) (n_inserted : ℕ) (f : StepFlow),
      (get_stable_inserted_structure_response p (some s) n_steps n_inserted).replace =
        some f →
      f.next_n_steps = n_steps.map (fun n => n - 1) ∧
      f.next_n_inserted = n_inserted + 1) := by
  refine ⟨fun n1 n2 n_inserted => rfl, ?_, ?_, ?_⟩
  · intro fuel s n n_inserted hsel hn
    have hcond : stepBudgetExhausted (some n) = false := by
      simp only [stepBudgetExhausted, decide_eq_false_iff_not]
      omega
    simp [insertion_levels, hcond, hsel, insertion_levels_none]
  · intro s n n_inserted hn
    have hcond : stepBudgetExhausted (some n) = true := by
      simp only [stepBudgetExhausted, decide_eq_true_eq]
      exact hn
    simp [get_stable_inserted_structure_response, hcond]
  · intro s n_steps n_inserted f hf
    cases hb : stepBudgetExhausted n_steps with
    | true => simp [get_stable_inserted_structure_response, hb] at hf
    | false =>
      have hrep : (get_stable_inserted_structure_response p (some s) n_steps
          n_inserted).replace =
          some { job_names := step_flow_job_names p.static_maker.name n_inserted
                 next_n_steps := n_steps.map (fun n => n - 1)
                 next_n_inserted := n_inserted + 1 } := by
        simp [get_stable_inserted_structure_response, hb]
      rw [hrep] at hf
      cases Option.some.inj hf
      exact ⟨rfl, rfl⟩

/-- Witness for C6 at a concrete input: at structure `3` the concrete
selector finds no survivor, and with budget 2 the run counts exactly one
level. -/
theorem C6_governors_witness :
    stepSelect pC 3 1 = none ∧ (1:ℤ) ≤ 2 ∧
      insertion_levels pC 5 (some 3) (some 2) 1 = 1 :=
  ⟨by decide, by decide, (C6_governors pC pC).2.1 4 3 2 1 (by decide) (by decide)⟩

/-- Claim C7 counterexample: the fan-out stage's resolved response carries
BOTH a terminal output and a replacement flow, refuting "never both". -/
theorem C7_counterexample :
    ((get_relaxed_job_summaries [(5:ℕ)] relaxMakerC "0").output).isSome = true ∧
    ((get_relaxed_job_summaries [(5:ℕ)] relaxMakerC "0").replace).isSome = true :=
  ⟨rfl, rfl⟩

/-- Claim C7 (amended): a resolved stage response carries a replacement
flow, a terminal output, both, or neither — not always exactly one.  The
fan-out response carries both the summaries and a replacement flow; the
recursive step's response never carries an output and carries a
replacement flow exactly when its guards pass; the selector never carries
a replacement and its output is absent exactly on an empty survivor
set. -/
theorem C7_amended_response_shapes {Chg S : Type} (p : InsertionParams Chg S) :
    (∀ (structures : List S) (relax_maker : Maker S) (append_name : String),
      (get_relaxed_job_summaries structures relax_maker append_name).output =
        some (outputs_of structures relax_maker append_name) ∧
      (get_relaxed_job_summaries structures relax_maker append_name).replace =
        some { jobs := relax_jobs_of structures relax_maker append_name
               output := some (outputs_of structures relax_maker append_name) }) ∧
    (∀ (structure_ : Option S) (n_steps : Option ℤ) (n_inserted : ℕ),
      (get_stable_inserted_structure_response p structure_ n_steps n_inserted).output =
        none) ∧
    (∀ (s : S) (n_steps : Option ℤ) (n_inserted : ℕ),
      stepBudgetExhausted n_steps = false →
      ((get_stable_inserted_structure_response p (some s) n_steps
        n_inserted).replace).isSome = true) ∧
    (∀ (relaxed_summaries : List (RelaxJobSummary S)) (ref_structure : S)
        (sm : StructureMatcher S),
      (get_min_energy_structure relaxed_summaries ref_structure sm).replace = none ∧
      ((get_min_energy_structure relaxed_summaries ref_structure sm).output = none ↔
        relaxed_summaries.filter
          (fun summary => sm.fit ref_structure summary.structure_) = [])) := by
  refine ⟨fun structures relax_maker append_name => ⟨rfl, rfl⟩, ?_, ?_, ?_⟩
  · intro structure_ n_steps n_inserted
    cases structure_ with
    | none => rfl
    | some s =>
      cases hb : stepBudgetExhausted n_steps <;>
        simp [get_stable_inserted_structure_response, hb]
  · intro s n_steps n_inserted hb
    simp [get_stable_inserted_structure_response, hb]
  · intro relaxed_summaries ref_structure sm
    exact ⟨get_min_energy_structure_replace _ _ _,
      get_min_energy_structure_output_none_iff _ _ _⟩

/-- Witness for the amended C7 at a concrete input. -/
theorem C7_amended_response_shapes_witness :
    stepBudgetExhausted none = false ∧
      ((get_stable_inserted_structure_response pC (some 100) none 0).replace).isSome =
        true :=
  ⟨rfl, (C7_amended_response_shapes pC).2.2.1 100 none 0 rfl⟩

/-- Claim C9: task names are a pure function of the step tag and candidate
index.  The relax job for candidate `i` under tag `t` is named
`<relax maker name> <t> (<i>)` — in particular, the fan-out a step tagged
`t` performs names its `i`-th relax job this way; every job a step emits
directly carries the step's tag as a suffix; and an expanding response
records the step's job names and hands the nested step tag `t + 1`, so
tags track recursion depth deterministically. -/
theorem C9_naming {Chg S : Type} (p : InsertionParams Chg S) :
    (∀ (structures : List S) (relax_maker : Maker S) (append_name : String)
        (i : ℕ) (hi : i < (relax_jobs_of structures relax_maker append_name).length),
      ((relax_jobs_of structures relax_maker append_name).get ⟨i, hi⟩).name =
        relax_maker.name ++ " " ++ append_name ++ " (" ++ toString i ++ ")") ∧
    (∀ (s : S) (t : ℕ) (i : ℕ)
        (hi : i < (relax_jobs_of (step_inserted_structures p s) p.relax_maker
          (toString t)).length),
      ((relax_jobs_of (step_inserted_structures p s) p.relax_maker
          (toString t)).get ⟨i, hi⟩).name =
        p.relax_maker.name ++ " " ++ toString t ++ " (" ++ toString i ++ ")") ∧
    (∀ (n_inserted : ℕ) (name : String),
      name ∈ step_flow_job_names p.static_maker.name n_inserted →
      ∃ base, name = base ++ " " ++ toString n_inserted) ∧
    (∀ (s : S) (n_steps : Option ℤ) (n_inserted : ℕ) (f : StepFlow),
      (get_stable_inserted_structure_response p (some s) n_steps n_inserted).replace =
        some f →
      f.job_names = step_flow_job_names p.static_maker.name n_inserted ∧
      f.next_n_inserted = n_inserted + 1) := by
  have hname : ∀ (structures : List S) (relax_maker : Maker S) (append_name : String)
      (i : ℕ) (hi : i < (relax_jobs_of structures relax_maker append_name).length),
      ((relax_jobs_of structures relax_maker append_name).get ⟨i, hi⟩).name =
        relax_maker.name ++ " " ++ append_name ++ " (" ++ toString i ++ ")" := by
    intro structures relax_maker append_name i hi
    simp [relax_jobs_of, List.get_eq_getElem, List.getElem_map, List.getElem_enum]
  refine ⟨hname, fun s t i hi => hname _ _ _ i hi, ?_, ?_⟩
  · intro n_inserted name hmem
    simp only [step_flow_job_names, List.mem_cons, List.not_mem_nil, or_false] at hmem
    rcases hmem with rfl | rfl | rfl | rfl | rfl | rfl
    all_goals exact ⟨_, rfl⟩
  · intro s n_steps n_inserted f hf
    cases hb : stepBudgetExhausted n_steps with
    | true => simp [get_stable_inserted_structure_response, hb] at hf
    | false =>
      have hrep : (get_stable_inserted_structure_response p (some s) n_steps
          n_inserted).replace =
          some { job_names := step_flow_job_names p.static_maker.name n_inserted
                 next_n_steps := n_steps.map (fun n => n - 1)
                 next_n_inserted := n_inserted + 1 } := by
        simp [get_stable_inserted_structure_response, hb]
      rw [hrep] at hf
      cases Option.some.inj hf
      exact ⟨rfl, rfl⟩

/-- Witness for C9 at a concrete input: with the relax maker named
`relax`, candidate 2 at tag 1 is named `relax 1 (2)` — matching the
repository's own test fixture names. -/
theorem C9_naming_witness :
    2 < (relax_jobs_of [(7:ℕ), 3, 9] relaxMakerC "1").length ∧
      ((relax_jobs_of [(7:ℕ), 3, 9] relaxMakerC "1").get ⟨2, by decide⟩).name =
        "relax 1 (2)" :=
  ⟨by decide, ((C9_naming pC).1 [7, 3, 9] relaxMakerC "1" 2 (by decide)).trans (by decide)⟩

/-- Claim C10: `make` first relaxes the caller's structure with
`bulk_relax_maker` when set (else `relax_maker`), starts the insertion
recursion from the relax job's output-structure reference — never from the
raw input — and hands it the matcher with the inserted element added to
its ignored species. -/
theorem C10_make {Chg S : Type} (m : ElectrodeInsertionMaker Chg S) (structure_ : S)
    (inserted_element : String) (n_steps : Option ℤ) (insertions_per_step : ℤ) :
    (∀ bulk, m.bulk_relax_maker = some bulk →
      (m.make structure_ inserted_element n_steps insertions_per_step).relax.maker =
        bulk) ∧
    (m.bulk_relax_maker = none →
      (m.make structure_ inserted_element n_steps insertions_per_step).relax.maker =
        m.relax_maker) ∧
    (m.make structure_ inserted_element n_steps
      insertions_per_step).relax.input_structure = structure_ ∧
    (m.make structure_ inserted_element n_steps insertions_per_step).relax.output =
      ((m.make structure_ inserted_element n_steps
        insertions_per_step).relax.maker).run structure_ ∧
    (m.make structure_ inserted_element n_steps
        insertions_per_step).inserted_structure.structure_ =
      StructureArg.relaxOutputStructure ∧
    (∀ s : S, (m.make structure_ inserted_element n_steps
        insertions_per_step).inserted_structure.structure_ ≠ StructureArg.raw s) ∧
    (m.make structure_ inserted_element n_steps
        insertions_per_step).inserted_structure.structure_matcher =
      _add_ignored_species m.structure_matcher inserted_element ∧
    inserted_element ∈ (m.make structure_ inserted_element n_steps
      insertions_per_step).inserted_structure.structure_matcher.ignored_species := by
  refine ⟨?_, ?_, ?_, ?_, ?_, ?_, ?_, ?_⟩
  · intro bulk h
    simp [ElectrodeInsertionMaker.make, h]
  · intro h
    simp [ElectrodeInsertionMaker.make, h]
  · cases hb : m.bulk_relax_maker <;> simp [ElectrodeInsertionMaker.make, hb]
  · cases hb : m.bulk_relax_maker <;> simp [ElectrodeInsertionMaker.make, hb]
  · cases hb : m.bulk_relax_maker <;> simp [ElectrodeInsertionMaker.make, hb]
  · intro s
    cases hb : m.bulk_relax_maker <;> simp [ElectrodeInsertionMaker.make, hb]
  · cases hb : m.bulk_relax_maker <;> simp [ElectrodeInsertionMaker.make, hb]
  · cases hb : m.bulk_relax_maker <;>
      simp [ElectrodeInsertionMaker.make, hb, _add_ignored_species]

/-- Witness for C10 at a concrete input (no bulk relax maker set, so the
plain relax maker performs the initial relaxation). -/
theorem C10_make_witness :
    eimC.bulk_relax_maker = none ∧
      (eimC.make 5 "Li" (some 2) 4).relax.maker = eimC.relax_maker :=
  ⟨rfl, (C10_make eimC 5 "Li" (some 2) 4).2.1 rfl⟩

end ElectrodeModel
